/-
Verification of the wecom-kf channel plugin (webhook gateway, sync loop,
dedup cache, access-token cache, event router, text chunking).

Shallow embedding of the TypeScript sources: the webhook handler module
(`handleWecomKfWebhookRequest`, `pullAndDispatchMessages`, `handleKfEvent`,
`isDuplicate`, cursor store) and `api.ts` (`getAccessToken`, `syncMessages`,
`splitMessageByBytes`).  Pure functions are translated directly; stateful
code (cursor store, dedup map, token cache) is modelled by explicit state
passing; the upstream HTTP endpoints and the crypto module (signature
verification, envelope decryption) are abstract parameters, since only
their success/failure outcome drives the control flow verified here.
-/
import Mathlib

namespace WecomKf

/-! ## JS-truthiness helpers -/

/-- JS truthiness for an optional string: `undefined` and `""` are falsy. -/
def strTruthy (o : Option String) : Bool :=
  o.getD "" ≠ ""

/-- Turn a JS-falsy optional string into `none`
    (mirrors `if (!x) x = undefined`). -/
def detruthy (o : Option String) : Option String :=
  if strTruthy o then o else none

/-- JS `String.prototype.trim()`: strip leading and trailing
    whitespace. -/
def jsTrim (s : String) : String :=
  ⟨((s.data.dropWhile Char.isWhitespace).reverse.dropWhile
      Char.isWhitespace).reverse⟩

/-! ## Text chunking: `splitMessageByBytes` (api.ts)

JS iterates the string code point by code point (`for (const char of text)`),
which matches iterating a Lean `List Char`.  `Buffer.byteLength(s, "utf8")`
is the sum of the UTF-8 sizes of the code points. -/

/-- UTF-8 byte length of a string given as a list of code points. -/
def utf8Len (s : List Char) : Nat :=
  (s.map Char.utf8Size).sum

/-- Inner loop of `splitMessageByBytes`: `current` is the chunk being
    accumulated; on overflow push `current` (if non-empty) and restart
    from the offending character. -/
def splitGo (maxBytes : Nat) (current : List Char) : List Char → List (List Char)
  | [] => if current = [] then [] else [current]
  | c :: rest =>
    if utf8Len current + c.utf8Size > maxBytes then
      if current = [] then splitGo maxBytes [c] rest
      else current :: splitGo maxBytes [c] rest
    else splitGo maxBytes (current ++ [c]) rest

/-- `splitMessageByBytes(text, maxBytes)` from api.ts. -/
def splitMessageByBytes (text : List Char) (maxBytes : Nat) : List (List Char) :=
  splitGo maxBytes [] text

/-! ## Data model (types.ts) -/

/-- The fields of a resolved account that the verified code paths read.
    Optional string fields model the optional TS fields, with JS
    truthiness via `strTruthy`. -/
structure Account where
  accountId : String
  token : Option String := none
  encodingAESKey : Option String := none
  corpId : Option String := none
  corpSecret : Option String := none
  openKfId : Option String := none
  /-- `account.config.welcomeText` -/
  welcomeText : Option String := none
deriving DecidableEq

/-- Event sub-payload of an event-typed sync item (`SyncMsgEvent.event`). -/
structure KfEvent where
  event_type : Option String := none
  welcome_code : Option String := none
  fail_msgid : Option String := none
  fail_type : Option Int := none
deriving DecidableEq

/-- A fetched sync item; only the fields read by the drain loop are kept
    (`msgid`, `msgtype`, `origin`, and the event payload for
    `msgtype = "event"`). -/
structure SyncMsg where
  msgid : String
  msgtype : String
  origin : Int
  external_userid : String := ""
  event : Option KfEvent := none
deriving DecidableEq

/-- One `sync_msg` response page (`SyncMsgResponse`). -/
structure SyncResp where
  errcode : Int
  next_cursor : String
  has_more : Int
  msg_list : List SyncMsg
deriving DecidableEq

/-! ## Cursor store and dedup cache (webhook module) -/

/-- `getCursorKey(accountId, openKfId)` = `` `${accountId}:${openKfId ?? "all"}` ``. -/
def getCursorKey (accountId : String) (openKfId : Option String) : String :=
  accountId ++ ":" ++ openKfId.getD "all"

/-- `cursorStore.set(k, v)` on an association-list model of the map. -/
def cursorSet (store : List (String × String)) (k v : String) :
    List (String × String) :=
  (k, v) :: store.filter (fun p => p.1 != k)

/-- `DEDUP_TTL_MS = 10 * 60 * 1000`. -/
def DEDUP_TTL_MS : Int := 10 * 60 * 1000

/-- `pruneProcessedMsgIds()`: delete every entry whose timestamp is older
    than `now - DEDUP_TTL_MS`. -/
def pruneProcessedMsgIds (m : List (String × Int)) (now : Int) :
    List (String × Int) :=
  m.filter (fun p => decide (now - DEDUP_TTL_MS ≤ p.2))

/-- `isDuplicate(msgid)`: returns `true` if already recorded; otherwise
    records the id with the current time and returns `false`.  The map is
    threaded explicitly. -/
def isDuplicate (m : List (String × Int)) (msgid : String) (now : Int) :
    Bool × List (String × Int) :=
  if (m.lookup msgid).isSome then (true, m) else (false, (msgid, now) :: m)

/-! ## The drain: `pullAndDispatchMessages`

The upstream `syncMessages` calls are modelled by a list of responses
`pages : List (Option SyncResp)` consumed in order: `none` is a thrown
network error, and a response with `errcode ≠ 0` makes `syncMessages`
throw (api.ts); both are caught by the loop's `catch`, which sets
`hasMore = false`.  The request parameters (`cursor` / `token` / `limit`)
have no effect on control flow and are therefore not materialised. -/

/-- Observable state threaded through one drain invocation. -/
structure DrainState where
  /-- the in-memory cursor store (`cursorStore`) -/
  store : List (String × String)
  /-- the dedup map (`processedMsgIds`) -/
  processed : List (String × Int)
  /-- items forwarded to the dispatch collaborator (`dispatchKfMessage`) -/
  dispatched : List SyncMsg
  /-- items handed to the event router (`handleKfEvent`) -/
  eventsRouted : List SyncMsg
  /-- number of `syncMessages` fetches issued -/
  consumed : Nat
  /-- number of `scheduleSaveCursors()` calls -/
  saves : Nat
deriving DecidableEq

/-- Initial drain state over a given store and dedup map. -/
def initDrainState (store : List (String × String))
    (processed : List (String × Int)) : DrainState :=
  { store := store, processed := processed, dispatched := [],
    eventsRouted := [], consumed := 0, saves := 0 }

/-- Per-item classification after the dedup check: events go to the event
    router, non-events are forwarded only when `origin === 3` and the
    runtime (`core`) is available. -/
def processMsgBody (hasCore : Bool) (st : DrainState) (m : SyncMsg) :
    DrainState :=
  if m.msgtype = "event" then
    { st with eventsRouted := st.eventsRouted ++ [m] }
  else if m.origin ≠ 3 then st
  else if hasCore then { st with dispatched := st.dispatched ++ [m] }
  else st

/-- One iteration of the `for (const msg of resp.msg_list)` body:
    `if (msg.msgid && isDuplicate(msg.msgid)) continue;` then classify. -/
def processMsg (now : Int) (hasCore : Bool) (st : DrainState) (m : SyncMsg) :
    DrainState :=
  if m.msgid ≠ "" then
    if (isDuplicate st.processed m.msgid now).1 then st
    else
      processMsgBody hasCore
        { st with processed := (isDuplicate st.processed m.msgid now).2 } m
  else processMsgBody hasCore st m

/-- Process a whole page's `msg_list`. -/
def processMsgs (now : Int) (hasCore : Bool) (msgs : List SyncMsg)
    (st : DrainState) : DrainState :=
  msgs.foldl (processMsg now hasCore) st

/-- Handle one successful `syncMessages` response: store a non-empty
    `next_cursor` (scheduling a save), compute `hasMore`, stop on an empty
    `msg_list`, skip item dispatch on cold start.  Returns the new state
    and whether the loop continues. -/
def syncStep (key : String) (isColdStart : Bool) (now : Int) (hasCore : Bool)
    (resp : SyncResp) (st : DrainState) : DrainState × Bool :=
  if resp.errcode ≠ 0 then (st, false)
  else
    let st1 := if resp.next_cursor ≠ "" then
        { st with store := cursorSet st.store key resp.next_cursor,
                  saves := st.saves + 1 }
      else st
    let hasMore := decide (resp.has_more = 1)
    if resp.msg_list.isEmpty then (st1, false)
    else if isColdStart then (st1, hasMore)
    else (processMsgs now hasCore resp.msg_list st1, hasMore)

/-- The `while (hasMore)` loop of `pullAndDispatchMessages`, consuming the
    modelled upstream responses in order. -/
def drainLoop (key : String) (isColdStart : Bool) (now : Int) (hasCore : Bool) :
    List (Option SyncResp) → DrainState → DrainState
  | [], st => st
  | p :: rest, st =>
    match p with
    | none => { st with consumed := st.consumed + 1 }
    | some resp =>
      if (syncStep key isColdStart now hasCore resp
            { st with consumed := st.consumed + 1 }).2 then
        drainLoop key isColdStart now hasCore rest
          (syncStep key isColdStart now hasCore resp
            { st with consumed := st.consumed + 1 }).1
      else
        (syncStep key isColdStart now hasCore resp
          { st with consumed := st.consumed + 1 }).1

/-- `const effectiveOpenKfId = account.openKfId || callbackOpenKfId`
    (config takes priority over the callback value). -/
def effectiveOpenKf (acct : Account) (callbackOpenKfId : Option String) :
    Option String :=
  if strTruthy acct.openKfId then acct.openKfId else callbackOpenKfId

/-- The cursor key a drain resolves for an account and a callback-supplied
    channel-instance id. -/
def effectiveCursorKey (acct : Account) (callbackOpenKfId : Option String) :
    String :=
  getCursorKey acct.accountId (effectiveOpenKf acct callbackOpenKfId)

/-- `pullAndDispatchMessages(target, callbackToken, callbackOpenKfId)`:
    preamble checks, prune of the dedup map, `openKfId` resolution,
    cursor lookup and cold-start detection (`!cursor`), then the drain
    loop. -/
def pullAndDispatchMessages (acct : Account)
    (callbackOpenKfId : Option String) (hasCore : Bool) (now : Int)
    (pages : List (Option SyncResp)) (store0 : List (String × String))
    (processed0 : List (String × Int)) : DrainState :=
  if ¬ strTruthy acct.corpId ∨ ¬ strTruthy acct.corpSecret then
    initDrainState store0 processed0
  else if ¬ strTruthy (effectiveOpenKf acct callbackOpenKfId) then
    initDrainState store0 (pruneProcessedMsgIds processed0 now)
  else
    drainLoop (effectiveCursorKey acct callbackOpenKfId)
      (decide ((store0.lookup (effectiveCursorKey acct callbackOpenKfId)).getD "" = ""))
      now hasCore pages
      (initDrainState store0 (pruneProcessedMsgIds processed0 now))

/-- Verification observable: how many dispatched items carry a given
    message id. -/
def dispatchCount (st : DrainState) (id : String) : Nat :=
  st.dispatched.countP (fun x => x.msgid == id)

/-- Verification observable: `dispatchCount` plus 1 if the id is not yet
    recorded in the dedup map.  Never increases during a drain. -/
def dispatchPotential (st : DrainState) (id : String) : Nat :=
  dispatchCount st id + (if (st.processed.lookup id).isSome then 0 else 1)

/-- The cursor value stored after a run of successful pages: each page
    with a non-empty `next_cursor` overwrites the stored value. -/
def lastCursorStored (init : Option String) (pages : List SyncResp) :
    Option String :=
  pages.foldl (fun c p => if p.next_cursor ≠ "" then some p.next_cursor else c)
    init

/-! ## Event router: `handleKfEvent` -/

/-- `handleKfEvent(msg, account)`, observed through the list of
    one-time welcome-send calls it makes (`sendKfWelcomeMessage`), each
    recorded as (welcome code, text content sent). -/
def handleKfEvent (msg : SyncMsg) (acct : Account) : List (String × String) :=
  if (msg.event.bind (·.event_type)).getD "" = "enter_session" then
    if strTruthy (msg.event.bind (·.welcome_code)) ∧
        strTruthy (acct.welcomeText.map jsTrim) then
      [((msg.event.bind (·.welcome_code)).getD "",
        (acct.welcomeText.map jsTrim).getD "")]
    else []
  else []

/-! ## Webhook HTTP handler: `handleWecomKfWebhookRequest`

The crypto module is not part of the verified sources; signature
verification and envelope decryption are abstract parameters:
`verify token timestamp nonce blob signature : Bool` and
`decrypt aesKey receiveId ciphertext : Option String` (`none` = throw).
The XML/JSON extraction of `Token` / `OpenKfId` from the decrypted
callback plaintext is likewise abstracted by
`extract plaintext : Option String × Option String`. -/

/-- Result of the GET verification branch: HTTP status and body. -/
structure GetOutcome where
  status : Nat
  body : String
deriving DecidableEq

/-- Result of the POST callback branch: HTTP status/body plus whether a
    drain was started and with which extracted arguments, and whether a
    decrypt failure was logged. -/
structure PostOutcome where
  status : Nat
  body : String
  drainStarted : Bool
  drainToken : Option String
  drainOpenKfId : Option String
  loggedDecryptError : Bool
deriving DecidableEq

/-- The registered targets whose token is set and whose signature check
    succeeds (`targets.filter(...)` in both branches). -/
def matchedTargets (targets : List Account)
    (timestamp nonce blob sig : String)
    (verify : String → String → String → String → String → Bool) :
    List Account :=
  targets.filter
    (fun t => strTruthy t.token && verify (t.token.getD "") timestamp nonce blob sig)

/-- GET branch: URL verification (echostr decryption). -/
def handleGetVerification (targets : List Account)
    (timestamp nonce sig echostr : String)
    (verify : String → String → String → String → String → Bool)
    (decrypt : String → Option String → String → Option String) : GetOutcome :=
  if timestamp = "" ∨ nonce = "" ∨ sig = "" ∨ echostr = "" then
    ⟨400, "missing query params"⟩
  else
    match matchedTargets targets timestamp nonce echostr sig verify with
    | [] => ⟨401, "unauthorized"⟩
    | t :: _ =>
      if ¬ strTruthy t.encodingAESKey then ⟨401, "unauthorized"⟩
      else
        match decrypt (t.encodingAESKey.getD "") t.corpId echostr with
        | some plaintext => ⟨200, plaintext⟩
        | none => ⟨400, "decrypt failed"⟩

/-- Post-ack phase of the POST branch: decrypt the callback body to
    extract `Token` and `OpenKfId`; a decrypt failure is logged and both
    stay `undefined`.  Returns (callbackToken, callbackOpenKfId,
    loggedDecryptError). -/
def postAckDecrypt (t : Account) (encrypt : String)
    (decrypt : String → Option String → String → Option String)
    (extract : String → Option String × Option String) :
    Option String × Option String × Bool :=
  if strTruthy t.encodingAESKey then
    match decrypt (t.encodingAESKey.getD "") t.corpId encrypt with
    | some plaintext =>
      let f := extract plaintext
      (detruthy f.1, detruthy f.2, false)
    | none => (none, none, true)
  else (none, none, false)

/-- POST branch, starting from the already-read body: `timestamp`,
    `nonce`, `sig` are the query parameters; `encrypt`, `msgTimestamp`,
    `msgNonce`, `msgSig` are the values resolved from the XML/JSON body
    (falling back to the query).  After the 200 "success" ack the drain is
    started unconditionally with the extracted arguments. -/
def handlePostCallback (targets : List Account)
    (timestamp nonce sig : String)
    (encrypt msgTimestamp msgNonce msgSig : String)
    (verify : String → String → String → String → String → Bool)
    (decrypt : String → Option String → String → Option String)
    (extract : String → Option String × Option String) : PostOutcome :=
  if timestamp = "" ∨ nonce = "" ∨ sig = "" then
    ⟨400, "missing query params", false, none, none, false⟩
  else if encrypt = "" then
    ⟨400, "missing encrypt", false, none, none, false⟩
  else
    match matchedTargets targets msgTimestamp msgNonce encrypt msgSig verify with
    | [] => ⟨401, "unauthorized", false, none, none, false⟩
    | t :: _ =>
      let r := postAckDecrypt t encrypt decrypt extract
      ⟨200, "success", true, r.1, r.2.1, r.2.2⟩

/-! ## Access-token cache: `getAccessToken` (api.ts) -/

/-- `ACCESS_TOKEN_TTL_MS = 7200 * 1000 - 5 * 60 * 1000`. -/
def ACCESS_TOKEN_TTL_MS : Int := 7200 * 1000 - 5 * 60 * 1000

/-- `AccessTokenCacheEntry` (types.ts). -/
structure AccessTokenCacheEntry where
  token : String
  expiresAt : Int
deriving DecidableEq

/-- The upstream `gettoken` JSON response. -/
structure GettokenResp where
  errcode : Option Int := none
  access_token : Option String := none
deriving DecidableEq

/-- `accessTokenCache.set(k, v)` on an association-list model. -/
def tokenCacheSet (cache : List (String × AccessTokenCacheEntry))
    (k : String) (v : AccessTokenCacheEntry) :
    List (String × AccessTokenCacheEntry) :=
  (k, v) :: cache.filter (fun p => p.1 != k)

/-- The cache key `` `${account.corpId}:kf` ``. -/
def tokenCacheKey (acct : Account) : String :=
  acct.corpId.getD "" ++ ":kf"

/-- Result of a `getAccessToken` call: the token, the cache afterwards,
    and whether the upstream credential endpoint was called. -/
structure TokenResult where
  token : String
  cache : List (String × AccessTokenCacheEntry)
  calledUpstream : Bool
deriving DecidableEq

/-- The cache-miss path of `getAccessToken`: call upstream (response
    modelled by `up`), validate, store with
    `expiresAt = now + ACCESS_TOKEN_TTL_MS`. -/
def fetchFreshToken (key : String)
    (cache : List (String × AccessTokenCacheEntry)) (now : Int)
    (up : GettokenResp) : Except String TokenResult :=
  if up.errcode.getD 0 ≠ 0 then .error "gettoken failed"
  else if ¬ strTruthy up.access_token then
    .error "gettoken returned empty access_token"
  else
    let tok := up.access_token.getD ""
    .ok ⟨tok, tokenCacheSet cache key ⟨tok, now + ACCESS_TOKEN_TTL_MS⟩, true⟩

/-- `getAccessToken(account)` with the cache threaded and the upstream
    response as a parameter. -/
def getAccessToken (acct : Account)
    (cache : List (String × AccessTokenCacheEntry)) (now : Int)
    (up : GettokenResp) : Except String TokenResult :=
  if ¬ strTruthy acct.corpId ∨ ¬ strTruthy acct.corpSecret then
    .error "corpId or corpSecret not configured"
  else
    match cache.lookup (tokenCacheKey acct) with
    | some cached =>
      if now < cached.expiresAt then .ok ⟨cached.token, cache, false⟩
      else fetchFreshToken (tokenCacheKey acct) cache now up
    | none => fetchFreshToken (tokenCacheKey acct) cache now up

/-! ## Concrete fixtures (used by witnesses and counterexamples) -/

/-- A fully configured account. -/
def exAcct : Account :=
  { accountId := "acct", token := some "tok", encodingAESKey := some "key",
    corpId := some "corp", corpSecret := some "sec", openKfId := some "kf",
    welcomeText := some "hi" }

/-- A customer text message. -/
def exMsgText : SyncMsg := { msgid := "m1", msgtype := "text", origin := 3 }

/-- A system-origin message. -/
def exMsgSystem : SyncMsg := { msgid := "m2", msgtype := "text", origin := 4 }

/-- Page 1: more pages follow; contains the customer message and a
    system-origin message. -/
def exPage1 : SyncResp :=
  { errcode := 0, next_cursor := "c2", has_more := 1,
    msg_list := [exMsgText, exMsgSystem] }

/-- Page 2: final page; redelivers the customer message. -/
def exPage2 : SyncResp :=
  { errcode := 0, next_cursor := "c3", has_more := 0,
    msg_list := [exMsgText] }

/-- A page that claims more pages follow but carries an empty item list. -/
def exPageEmptyMore : SyncResp :=
  { errcode := 0, next_cursor := "c2", has_more := 1, msg_list := [] }

/-- A failing upstream response (non-zero result code). -/
def exPageErr : SyncResp :=
  { errcode := 95001, next_cursor := "cX", has_more := 1,
    msg_list := [exMsgText] }

/-- A warm cursor store for `exAcct`. -/
def exStoreWarm : List (String × String) := [("acct:kf", "c1")]

/-- A registered tenant with a callback token but no envelope key. -/
def exAcctNoKey : Account := { accountId := "nk", token := some "tok" }

/-- An `enter_session` event carrying a welcome code. -/
def exEnterSession : SyncMsg :=
  { msgid := "e1", msgtype := "event", origin := 4,
    event := some { event_type := some "enter_session",
                    welcome_code := some "WC1" } }

/-- An `enter_session` event without a welcome code. -/
def exEnterSessionNoCode : SyncMsg :=
  { msgid := "e2", msgtype := "event", origin := 4,
    event := some { event_type := some "enter_session" } }

/-- A successful `gettoken` response. -/
def exGettokenOk : GettokenResp :=
  { errcode := some 0, access_token := some "TOKEN" }

/-- A signature check that accepts everything. -/
def verifyAlways : String → String → String → String → String → Bool :=
  fun _ _ _ _ _ => true

/-- A decryption that always fails (throws). -/
def decryptFail : String → Option String → String → Option String :=
  fun _ _ _ => none

/-- A decryption that always succeeds with a fixed plaintext. -/
def decryptOk : String → Option String → String → Option String :=
  fun _ _ _ => some "PLAINTEXT"

/-- A plaintext-field extraction that finds nothing. -/
def extractNone : String → Option String × Option String :=
  fun _ => (none, none)

/-! ## Theorems -/

/-! ### Text chunking (C10) -/

theorem utf8Len_append (a b : List Char) :
    utf8Len (a ++ b) = utf8Len a + utf8Len b := by
  simp [utf8Len]

lemma splitGo_join (maxBytes : Nat) (current : List Char) (l : List Char) :
    (splitGo maxBytes current l).flatten = current ++ l := by
  induction l generalizing current with
  | nil =>
    by_cases h : current = [] <;> simp [splitGo, h]
  | cons c rest ih =>
    by_cases h : utf8Len current + c.utf8Size > maxBytes
    · by_cases hc : current = []
      · simp [splitGo, h, hc, ih]
      · simp [splitGo, h, hc, ih]
    · simp [splitGo, h, ih]

lemma splitGo_ne_nil (maxBytes : Nat) (current : List Char) (l : List Char)
    (hcur : current ≠ []) :
    ∀ ch ∈ splitGo maxBytes current l, ch ≠ [] := by
  induction l generalizing current with
  | nil =>
    intro ch hch
    simp [splitGo, hcur] at hch
    simpa [hch] using hcur
  | cons c rest ih =>
    intro ch hch
    by_cases h : utf8Len current + c.utf8Size > maxBytes
    · simp [splitGo, h, hcur] at hch
      rcases hch with rfl | hch
      · exact hcur
      · exact ih [c] (by simp) ch hch
    · simp [splitGo, h] at hch
      exact ih (current ++ [c]) (by simp) ch hch

lemma splitGo_mem_ne_nil (maxBytes : Nat) (l : List Char) :
    ∀ ch ∈ splitGo maxBytes [] l, ch ≠ [] := by
  cases l with
  | nil => simp [splitGo]
  | cons c rest =>
    intro ch hch
    by_cases h : utf8Len [] + c.utf8Size > maxBytes
    · simp [splitGo, h] at hch
      exact splitGo_ne_nil maxBytes [c] rest (by simp) ch hch
    · simp [splitGo, h] at hch
      exact splitGo_ne_nil maxBytes [c] rest (by simp) ch hch

lemma splitGo_bytes (maxBytes : Nat) (current : List Char) (l : List Char)
    (hchars : ∀ c ∈ l, c.utf8Size ≤ maxBytes)
    (hcur : utf8Len current ≤ maxBytes) :
    ∀ ch ∈ splitGo maxBytes current l, utf8Len ch ≤ maxBytes := by
  induction l generalizing current with
  | nil =>
    by_cases h : current = [] <;> simp [splitGo, h]
    exact hcur
  | cons c rest ih =>
    intro ch hch
    by_cases h : utf8Len current + c.utf8Size > maxBytes
    · have hc1 : utf8Len [c] ≤ maxBytes := by
        simpa [utf8Len] using hchars c (by simp)
      by_cases hc : current = []
      · simp [splitGo, h, hc] at hch
        exact ih [c] (fun x hx => hchars x (by simp [hx])) hc1 ch hch
      · simp [splitGo, h, hc] at hch
        rcases hch with rfl | hch
        · exact hcur
        · exact ih [c] (fun x hx => hchars x (by simp [hx])) hc1 ch hch
    · push_neg at h
      have hbound : utf8Len (current ++ [c]) ≤ maxBytes := by
        simpa [utf8Len_append, utf8Len] using h
      simp [splitGo, not_lt.mpr h] at hch
      exact ih (current ++ [c]) (fun x hx => hchars x (by simp [hx])) hbound ch hch

/-- C10: for every string `text` and every `maxBytes > 0`, the chunks
returned by `splitMessageByBytes` concatenate in order to exactly the
original text, no chunk is empty, and — provided every single character of
`text` has UTF-8 byte length at most `maxBytes` — every chunk's UTF-8 byte
length is at most `maxBytes`. -/
theorem C10_splitMessageByBytes_chunks (text : List Char) (maxBytes : Nat)
    (hpos : 0 < maxBytes) :
    (splitMessageByBytes text maxBytes).flatten = text ∧
    (∀ ch ∈ splitMessageByBytes text maxBytes, ch ≠ []) ∧
    ((∀ c ∈ text, c.utf8Size ≤ maxBytes) →
      ∀ ch ∈ splitMessageByBytes text maxBytes, utf8Len ch ≤ maxBytes) := by
  refine ⟨by simpa using splitGo_join maxBytes [] text,
    splitGo_mem_ne_nil maxBytes text, fun hchars => ?_⟩
  exact splitGo_bytes maxBytes [] text hchars (by simp [utf8Len])

/-- Witness for C10 at `text = "héllo"`, `maxBytes = 3`. -/
theorem C10_splitMessageByBytes_chunks_witness :
    (splitMessageByBytes "héllo".toList 3).flatten = "héllo".toList ∧
    (∀ ch ∈ splitMessageByBytes "héllo".toList 3, ch ≠ []) ∧
    ((∀ c ∈ "héllo".toList, c.utf8Size ≤ 3) →
      ∀ ch ∈ splitMessageByBytes "héllo".toList 3, utf8Len ch ≤ 3) :=
  C10_splitMessageByBytes_chunks "héllo".toList 3 (by decide)

/-! ### Drain-loop helper lemmas -/

lemma cursorSet_lookup_self (s : List (String × String)) (k v : String) :
    (cursorSet s k v).lookup k = some v := by
  simp [cursorSet, List.lookup]

lemma processMsgBody_frame (hc : Bool) (st : DrainState) (m : SyncMsg) :
    (processMsgBody hc st m).store = st.store ∧
    (processMsgBody hc st m).processed = st.processed ∧
    (processMsgBody hc st m).consumed = st.consumed ∧
    (processMsgBody hc st m).saves = st.saves := by
  unfold processMsgBody
  split
  · simp
  · split
    · simp
    · split <;> simp

lemma processMsg_frame (now : Int) (hc : Bool) (st : DrainState) (m : SyncMsg) :
    (processMsg now hc st m).store = st.store ∧
    (processMsg now hc st m).consumed = st.consumed ∧
    (processMsg now hc st m).saves = st.saves := by
  unfold processMsg
  split
  · split
    · exact ⟨rfl, rfl, rfl⟩
    · have h := processMsgBody_frame hc
        { st with processed := (isDuplicate st.processed m.msgid now).2 } m
      exact ⟨h.1, h.2.2.1, h.2.2.2⟩
  · have h := processMsgBody_frame hc st m
    exact ⟨h.1, h.2.2.1, h.2.2.2⟩

lemma processMsgs_frame (now : Int) (hc : Bool) (msgs : List SyncMsg)
    (st : DrainState) :
    (processMsgs now hc msgs st).store = st.store ∧
    (processMsgs now hc msgs st).consumed = st.consumed ∧
    (processMsgs now hc msgs st).saves = st.saves := by
  induction msgs generalizing st with
  | nil => exact ⟨rfl, rfl, rfl⟩
  | cons m rest ih =>
    have h1 := processMsg_frame now hc st m
    have h2 := ih (processMsg now hc st m)
    simp only [processMsgs, List.foldl_cons] at *
    exact ⟨h2.1.trans h1.1, h2.2.1.trans h1.2.1, h2.2.2.trans h1.2.2⟩

lemma syncStep_snd_iff (k : String) (c : Bool) (now : Int) (hc : Bool)
    (resp : SyncResp) (st : DrainState) :
    (syncStep k c now hc resp st).2 = true ↔
      (resp.errcode = 0 ∧ resp.has_more = 1 ∧ resp.msg_list ≠ []) := by
  unfold syncStep
  by_cases he : resp.errcode = 0
  · by_cases hl : resp.msg_list.isEmpty
    · simp [he, hl, List.isEmpty_iff.mp hl]
    · have hne : resp.msg_list ≠ [] := by simpa [List.isEmpty_iff] using hl
      cases c <;> simp [he, hl, hne]
  · simp [he]

lemma syncStep_store_lookup (k : String) (c : Bool) (now : Int) (hc : Bool)
    (resp : SyncResp) (st : DrainState) :
    ((syncStep k c now hc resp st).1.store).lookup k =
      if resp.errcode = 0 ∧ resp.next_cursor ≠ "" then some resp.next_cursor
      else st.store.lookup k := by
  unfold syncStep
  by_cases he : resp.errcode ≠ 0
  · simp [he]
  · push_neg at he
    by_cases hn : resp.next_cursor ≠ ""
    · by_cases hl : resp.msg_list.isEmpty
      · simp [he, hn, hl, cursorSet_lookup_self]
      · cases c <;>
          simp [he, hn, hl, cursorSet_lookup_self,
            (processMsgs_frame now hc resp.msg_list _).1]
    · push_neg at hn
      by_cases hl : resp.msg_list.isEmpty
      · simp [he, hn, hl]
      · cases c <;>
          simp [he, hn, hl, (processMsgs_frame now hc resp.msg_list _).1]

lemma syncStep_consumed (k : String) (c : Bool) (now : Int) (hc : Bool)
    (resp : SyncResp) (st : DrainState) :
    (syncStep k c now hc resp st).1.consumed = st.consumed := by
  unfold syncStep
  by_cases he : resp.errcode ≠ 0
  · simp [he]
  · push_neg at he
    by_cases hn : resp.next_cursor ≠ "" <;>
      by_cases hl : resp.msg_list.isEmpty <;>
        cases c <;>
          simp [he, hn, hl, (processMsgs_frame now hc resp.msg_list _).2.1]

lemma syncStep_cold_skips (k : String) (now : Int) (hc : Bool)
    (resp : SyncResp) (st : DrainState) :
    (syncStep k true now hc resp st).1.dispatched = st.dispatched ∧
    (syncStep k true now hc resp st).1.eventsRouted = st.eventsRouted := by
  unfold syncStep
  by_cases he : resp.errcode ≠ 0
  · simp [he]
  · push_neg at he
    by_cases hn : resp.next_cursor ≠ "" <;>
      by_cases hl : resp.msg_list.isEmpty <;>
        simp [he, hn, hl]

lemma drainLoop_nil (k : String) (c : Bool) (now : Int) (hc : Bool)
    (st : DrainState) : drainLoop k c now hc [] st = st := rfl

lemma drainLoop_cons_none (k : String) (c : Bool) (now : Int) (hc : Bool)
    (rest : List (Option SyncResp)) (st : DrainState) :
    drainLoop k c now hc (none :: rest) st =
      { st with consumed := st.consumed + 1 } := rfl

lemma drainLoop_cons_some (k : String) (c : Bool) (now : Int) (hc : Bool)
    (resp : SyncResp) (rest : List (Option SyncResp)) (st : DrainState) :
    drainLoop k c now hc (some resp :: rest) st =
      if (syncStep k c now hc resp { st with consumed := st.consumed + 1 }).2 then
        drainLoop k c now hc rest
          (syncStep k c now hc resp { st with consumed := st.consumed + 1 }).1
      else
        (syncStep k c now hc resp { st with consumed := st.consumed + 1 }).1 := rfl

lemma drainLoop_consumed_ge (k : String) (c : Bool) (now : Int) (hc : Bool)
    (pages : List (Option SyncResp)) (st : DrainState) :
    st.consumed ≤ (drainLoop k c now hc pages st).consumed := by
  induction pages generalizing st with
  | nil => simp [drainLoop_nil]
  | cons p rest ih =>
    cases p with
    | none =>
      rw [drainLoop_cons_none]
      exact Nat.le_succ _
    | some resp =>
      rw [drainLoop_cons_some]
      split
      · have h := ih ((syncStep k c now hc resp
          { st with consumed := st.consumed + 1 }).1)
        rw [syncStep_consumed] at h
        exact le_trans (Nat.le_succ _) h
      · rw [syncStep_consumed]
        exact Nat.le_succ _

lemma drainLoop_consumed_ge_one (k : String) (c : Bool) (now : Int) (hc : Bool)
    (p : Option SyncResp) (rest : List (Option SyncResp)) (st : DrainState) :
    st.consumed + 1 ≤ (drainLoop k c now hc (p :: rest) st).consumed := by
  cases p with
  | none =>
    rw [drainLoop_cons_none]
  | some resp =>
    rw [drainLoop_cons_some]
    split
    · have h := drainLoop_consumed_ge k c now hc rest
        ((syncStep k c now hc resp { st with consumed := st.consumed + 1 }).1)
      rw [syncStep_consumed] at h
      exact h
    · rw [syncStep_consumed]

lemma drainLoop_consumed_le (k : String) (c : Bool) (now : Int) (hc : Bool)
    (pages : List (Option SyncResp)) (st : DrainState) :
    (drainLoop k c now hc pages st).consumed ≤ st.consumed + pages.length := by
  induction pages generalizing st with
  | nil => simp [drainLoop_nil]
  | cons p rest ih =>
    cases p with
    | none =>
      rw [drainLoop_cons_none]
      simp only [List.length_cons]
      omega
    | some resp =>
      rw [drainLoop_cons_some]
      simp only [List.length_cons]
      split
      · have h := ih ((syncStep k c now hc resp
          { st with consumed := st.consumed + 1 }).1)
        rw [syncStep_consumed] at h
        refine le_trans h ?_
        change st.consumed + 1 + rest.length ≤ st.consumed + (rest.length + 1)
        omega
      · rw [syncStep_consumed]
        change st.consumed + 1 ≤ st.consumed + (rest.length + 1)
        omega

/-! ### Origin filter (C4) -/

lemma processMsgBody_dispatched_mem (hc : Bool) (st : DrainState) (m : SyncMsg) :
    ∀ x ∈ (processMsgBody hc st m).dispatched,
      x ∈ st.dispatched ∨ (x.origin = 3 ∧ x.msgtype ≠ "event") := by
  unfold processMsgBody
  split
  · exact fun x hx => Or.inl hx
  · rename_i hev
    split
    · exact fun x hx => Or.inl hx
    · rename_i ho
      push_neg at ho
      split
      · intro x hx
        simp at hx
        rcases hx with hx | rfl
        · exact Or.inl hx
        · exact Or.inr ⟨ho, hev⟩
      · exact fun x hx => Or.inl hx

lemma processMsg_dispatched_mem (now : Int) (hc : Bool) (st : DrainState)
    (m : SyncMsg) :
    ∀ x ∈ (processMsg now hc st m).dispatched,
      x ∈ st.dispatched ∨ (x.origin = 3 ∧ x.msgtype ≠ "event") := by
  unfold processMsg
  split
  · split
    · intro x hx
      exact Or.inl hx
    · intro x hx
      rcases processMsgBody_dispatched_mem hc
          { st with processed := (isDuplicate st.processed m.msgid now).2 } m
          x hx with h | h
      · exact Or.inl h
      · exact Or.inr h
  · exact processMsgBody_dispatched_mem hc st m

lemma processMsgs_dispatched_mem (now : Int) (hc : Bool) (msgs : List SyncMsg)
    (st : DrainState) :
    ∀ x ∈ (processMsgs now hc msgs st).dispatched,
      x ∈ st.dispatched ∨ (x.origin = 3 ∧ x.msgtype ≠ "event") := by
  induction msgs generalizing st with
  | nil => intro x hx; exact Or.inl hx
  | cons m rest ih =>
    intro x hx
    simp only [processMsgs, List.foldl_cons] at hx
    rcases ih (processMsg now hc st m) x hx with h | h
    · exact processMsg_dispatched_mem now hc st m x h
    · exact Or.inr h

lemma syncStep_dispatched_mem (k : String) (c : Bool) (now : Int) (hc : Bool)
    (resp : SyncResp) (st : DrainState) :
    ∀ x ∈ (syncStep k c now hc resp st).1.dispatched,
      x ∈ st.dispatched ∨ (x.origin = 3 ∧ x.msgtype ≠ "event") := by
  unfold syncStep
  by_cases he : resp.errcode ≠ 0
  · rw [if_pos he]
    exact fun x hx => Or.inl hx
  · rw [if_neg he]
    by_cases hl : resp.msg_list.isEmpty
    · rw [if_pos hl]
      split <;> exact fun x hx => Or.inl hx
    · rw [if_neg hl]
      cases c with
      | true =>
        simp only [if_true]
        split <;> exact fun x hx => Or.inl hx
      | false =>
        simp only [Bool.false_eq_true, if_false]
        intro x hx
        split at hx <;>
        · rcases processMsgs_dispatched_mem now hc resp.msg_list _ x hx with h | h
          · exact Or.inl h
          · exact Or.inr h

lemma drainLoop_dispatched_mem (k : String) (c : Bool) (now : Int) (hc : Bool)
    (pages : List (Option SyncResp)) (st : DrainState) :
    ∀ x ∈ (drainLoop k c now hc pages st).dispatched,
      x ∈ st.dispatched ∨ (x.origin = 3 ∧ x.msgtype ≠ "event") := by
  induction pages generalizing st with
  | nil => intro x hx; exact Or.inl hx
  | cons p rest ih =>
    cases p with
    | none =>
      rw [drainLoop_cons_none]
      intro x hx
      exact Or.inl hx
    | some resp =>
      rw [drainLoop_cons_some]
      split
      · intro x hx
        rcases ih _ x hx with h | h
        · rcases syncStep_dispatched_mem k c now hc resp
              { st with consumed := st.consumed + 1 } x h with h2 | h2
          · exact Or.inl h2
          · exact Or.inr h2
        · exact Or.inr h
      · intro x hx
        rcases syncStep_dispatched_mem k c now hc resp
            { st with consumed := st.consumed + 1 } x hx with h2 | h2
        · exact Or.inl h2
        · exact Or.inr h2

/-- C4: every item the drain forwards to the dispatch collaborator has
origin discriminator 3 and is not of the event kind; items with origin ≠ 3
are never dispatched regardless of message type (over every account,
callback argument, upstream page sequence and initial state). -/
theorem C4_origin_filter (acct : Account) (cbKf : Option String)
    (hasCore : Bool) (now : Int) (pages : List (Option SyncResp))
    (store0 : List (String × String)) (processed0 : List (String × Int)) :
    ∀ x ∈ (pullAndDispatchMessages acct cbKf hasCore now pages
            store0 processed0).dispatched,
      x.origin = 3 ∧ x.msgtype ≠ "event" := by
  intro x hx
  unfold pullAndDispatchMessages at hx
  split_ifs at hx
  · simp [initDrainState] at hx
  · rcases drainLoop_dispatched_mem _ _ now hasCore pages _ x hx with h | h
    · simp [initDrainState] at h
    · exact h
  · simp [initDrainState] at hx

/-- Witness for C4: the customer text message dispatched by the concrete
warm drain has origin 3 and is not an event. -/
theorem C4_origin_filter_witness :
    exMsgText.origin = 3 ∧ exMsgText.msgtype ≠ "event" :=
  C4_origin_filter exAcct none true 0 [some exPage1, some exPage2]
    exStoreWarm [] exMsgText (by decide)

/-! ### Cold-start drain (C2) -/

lemma drainLoop_cold_frame (k : String) (now : Int) (hc : Bool)
    (pages : List (Option SyncResp)) (st : DrainState) :
    (drainLoop k true now hc pages st).dispatched = st.dispatched ∧
    (drainLoop k true now hc pages st).eventsRouted = st.eventsRouted := by
  induction pages generalizing st with
  | nil => exact ⟨rfl, rfl⟩
  | cons p rest ih =>
    cases p with
    | none =>
      rw [drainLoop_cons_none]
      exact ⟨rfl, rfl⟩
    | some resp =>
      rw [drainLoop_cons_some]
      split
      · have h1 := syncStep_cold_skips k now hc resp
          { st with consumed := st.consumed + 1 }
        have h2 := ih ((syncStep k true now hc resp
          { st with consumed := st.consumed + 1 }).1)
        exact ⟨h2.1.trans h1.1, h2.2.trans h1.2⟩
      · exact syncStep_cold_skips k now hc resp
          { st with consumed := st.consumed + 1 }

lemma lastCursorStored_of_getLast (init : Option String)
    (pages : List SyncResp) (plast : SyncResp)
    (h : pages.getLast? = some plast) (hnc : plast.next_cursor ≠ "") :
    lastCursorStored init pages = some plast.next_cursor := by
  induction pages generalizing init with
  | nil => simp at h
  | cons p rest ih =>
    cases rest with
    | nil =>
      simp at h
      subst h
      simp [lastCursorStored, hnc]
    | cons q rs =>
      rw [List.getLast?_cons_cons] at h
      simpa [lastCursorStored] using ih _ h

lemma drainLoop_cold_run (k : String) (now : Int) (hc : Bool)
    (pages : List SyncResp) (plast : SyncResp) (st : DrainState)
    (hall : ∀ p ∈ pages, p.errcode = 0 ∧ p.msg_list ≠ [])
    (hmore : ∀ p ∈ pages.dropLast, p.has_more = 1)
    (hlast : pages.getLast? = some plast)
    (hlm : plast.has_more ≠ 1) :
    (drainLoop k true now hc (pages.map some) st).store.lookup k =
      lastCursorStored (st.store.lookup k) pages ∧
    (drainLoop k true now hc (pages.map some) st).consumed =
      st.consumed + pages.length := by
  induction pages generalizing st with
  | nil => simp at hlast
  | cons p rest ih =>
    have hp := hall p (by simp)
    simp only [List.map_cons]
    rw [drainLoop_cons_some]
    cases rest with
    | nil =>
      simp only [List.getLast?_singleton, Option.some.injEq] at hlast
      subst hlast
      have hsnd : ¬ (syncStep k true now hc p
          { st with consumed := st.consumed + 1 }).2 = true := by
        intro hX
        exact hlm ((syncStep_snd_iff _ _ _ _ _ _).mp hX).2.1
      rw [if_neg hsnd]
      refine ⟨?_, ?_⟩
      · rw [syncStep_store_lookup]
        simp only [lastCursorStored, List.foldl_cons, List.foldl_nil, hp.1,
          true_and]
      · rw [syncStep_consumed]
        simp
    | cons q rs =>
      have hpm : p.has_more = 1 := hmore p (by simp)
      have hsnd : (syncStep k true now hc p
          { st with consumed := st.consumed + 1 }).2 = true := by
        rw [syncStep_snd_iff]
        exact ⟨hp.1, hpm, hp.2⟩
      rw [if_pos hsnd]
      have ihh := ih
        ((syncStep k true now hc p { st with consumed := st.consumed + 1 }).1)
        (fun x hx => hall x (by simp [hx]))
        (fun x hx => hmore x (by
          rw [List.dropLast_cons₂]
          exact List.mem_cons_of_mem p hx))
        (by rw [List.getLast?_cons_cons] at hlast; exact hlast)
      refine ⟨?_, ?_⟩
      · rw [ihh.1, syncStep_store_lookup]
        simp only [lastCursorStored, List.foldl_cons, hp.1, true_and]
      · rw [ihh.2, syncStep_consumed]
        simp
        omega

/-- C2: a drain with no stored cursor (cold start) over N ≥ 1 successful
pages, each carrying at least one item, dispatches zero items — neither to
the event router nor to the dispatch collaborator — and leaves the cursor
store holding the final page's `next_cursor`; all N pages are fetched. -/
theorem C2_cold_start_drain (acct : Account) (cbKf : Option String)
    (hasCore : Bool) (now : Int) (pages : List SyncResp) (plast : SyncResp)
    (store0 : List (String × String)) (processed0 : List (String × Int))
    (hcorp : strTruthy acct.corpId = true)
    (hsec : strTruthy acct.corpSecret = true)
    (hkf : strTruthy (effectiveOpenKf acct cbKf) = true)
    (hcold : (store0.lookup (effectiveCursorKey acct cbKf)).getD "" = "")
    (hall : ∀ p ∈ pages, p.errcode = 0 ∧ p.msg_list ≠ [])
    (hmore : ∀ p ∈ pages.dropLast, p.has_more = 1)
    (hlast : pages.getLast? = some plast)
    (hlm : plast.has_more ≠ 1)
    (hnc : plast.next_cursor ≠ "") :
    (pullAndDispatchMessages acct cbKf hasCore now (pages.map some)
        store0 processed0).dispatched = [] ∧
    (pullAndDispatchMessages acct cbKf hasCore now (pages.map some)
        store0 processed0).eventsRouted = [] ∧
    (pullAndDispatchMessages acct cbKf hasCore now (pages.map some)
        store0 processed0).store.lookup (effectiveCursorKey acct cbKf) =
      some plast.next_cursor ∧
    (pullAndDispatchMessages acct cbKf hasCore now (pages.map some)
        store0 processed0).consumed = pages.length := by
  have hred : pullAndDispatchMessages acct cbKf hasCore now (pages.map some)
      store0 processed0 =
      drainLoop (effectiveCursorKey acct cbKf) true now hasCore
        (pages.map some)
        (initDrainState store0 (pruneProcessedMsgIds processed0 now)) := by
    unfold pullAndDispatchMessages
    rw [if_neg (by simp [hcorp, hsec]), if_neg (by simp [hkf])]
    congr 1
    simp [hcold]
  rw [hred]
  have hframe := drainLoop_cold_frame (effectiveCursorKey acct cbKf) now
    hasCore (pages.map some)
    (initDrainState store0 (pruneProcessedMsgIds processed0 now))
  have hrun := drainLoop_cold_run (effectiveCursorKey acct cbKf) now hasCore
    pages plast (initDrainState store0 (pruneProcessedMsgIds processed0 now))
    hall hmore hlast hlm
  refine ⟨hframe.1.trans rfl, hframe.2.trans rfl, ?_, ?_⟩
  · rw [hrun.1]
    exact lastCursorStored_of_getLast _ pages plast hlast hnc
  · rw [hrun.2]
    simp [initDrainState]

/-- Witness for C2: a concrete two-page cold drain over `exAcct`. -/
theorem C2_cold_start_drain_witness :
    (pullAndDispatchMessages exAcct none true 0
        [some exPage1, some exPage2] [] []).dispatched = [] ∧
    (pullAndDispatchMessages exAcct none true 0
        [some exPage1, some exPage2] [] []).eventsRouted = [] ∧
    (pullAndDispatchMessages exAcct none true 0
        [some exPage1, some exPage2] [] []).store.lookup
      (effectiveCursorKey exAcct none) = some exPage2.next_cursor ∧
    (pullAndDispatchMessages exAcct none true 0
        [some exPage1, some exPage2] [] []).consumed =
      [exPage1, exPage2].length :=
  C2_cold_start_drain exAcct none true 0 [exPage1, exPage2] exPage2 [] []
    (by decide) (by decide) (by decide) (by decide)
    (by decide) (by decide) (by decide) (by decide) (by decide)

/-! ### Dedup: at most one dispatch per message id (C3) -/

lemma processMsgBody_dispatched_cases (hc : Bool) (st : DrainState)
    (m : SyncMsg) :
    (processMsgBody hc st m).dispatched = st.dispatched ∨
    (processMsgBody hc st m).dispatched = st.dispatched ++ [m] := by
  unfold processMsgBody
  split
  · exact Or.inl rfl
  · split
    · exact Or.inl rfl
    · split
      · exact Or.inr rfl
      · exact Or.inl rfl

lemma isDuplicate_false_lookup (proc : List (String × Int)) (msgid : String)
    (now : Int) (h : ¬ (isDuplicate proc msgid now).1 = true) :
    proc.lookup msgid = none ∧
    (isDuplicate proc msgid now).2 = (msgid, now) :: proc := by
  unfold isDuplicate at *
  by_cases hs : (proc.lookup msgid).isSome
  · rw [if_pos hs] at h
    simp at h
  · rw [if_neg hs]
    exact ⟨Option.not_isSome_iff_eq_none.mp hs, rfl⟩

lemma processMsg_potential (now : Int) (hc : Bool) (st : DrainState)
    (m : SyncMsg) (id : String) (hid : id ≠ "") :
    dispatchPotential (processMsg now hc st m) id ≤ dispatchPotential st id := by
  unfold processMsg
  split
  · rename_i hmid
    split
    · exact le_refl _
    · rename_i hdup
      have hlk := isDuplicate_false_lookup st.processed m.msgid now hdup
      rw [hlk.2]
      have hproc := (processMsgBody_frame hc
        { st with processed := (m.msgid, now) :: st.processed } m).2.1
      rcases processMsgBody_dispatched_cases hc
          { st with processed := (m.msgid, now) :: st.processed } m with hD | hD
      · unfold dispatchPotential dispatchCount
        rw [hD, hproc]
        by_cases hmi : m.msgid = id
        · subst hmi
          rw [hlk.1]
          simp [List.lookup]
        · have hbeq : (id == m.msgid) = false :=
            beq_eq_false_iff_ne.mpr (Ne.symm hmi)
          simp only [List.lookup, hbeq]
          exact le_refl _
      · unfold dispatchPotential dispatchCount
        rw [hD, hproc, List.countP_append]
        by_cases hmi : m.msgid = id
        · subst hmi
          rw [hlk.1]
          simp [List.lookup, List.countP_cons]
        · have hbeq : (id == m.msgid) = false :=
            beq_eq_false_iff_ne.mpr (Ne.symm hmi)
          have hcnt : (m.msgid == id) = false := beq_eq_false_iff_ne.mpr hmi
          simp only [List.lookup, hbeq]
          simp [List.countP_cons, hcnt]
  · rename_i hmid
    push_neg at hmid
    have hproc := (processMsgBody_frame hc st m).2.1
    rcases processMsgBody_dispatched_cases hc st m with hD | hD
    · unfold dispatchPotential dispatchCount
      rw [hD, hproc]
    · unfold dispatchPotential dispatchCount
      rw [hD, hproc, List.countP_append]
      have hcnt : (m.msgid == id) = false := by
        rw [hmid]
        exact beq_eq_false_iff_ne.mpr (Ne.symm hid)
      simp [List.countP_cons, hcnt]

lemma processMsgs_potential (now : Int) (hc : Bool) (msgs : List SyncMsg)
    (st : DrainState) (id : String) (hid : id ≠ "") :
    dispatchPotential (processMsgs now hc msgs st) id ≤
      dispatchPotential st id := by
  induction msgs generalizing st with
  | nil => exact le_refl _
  | cons m rest ih =>
    simp only [processMsgs, List.foldl_cons]
    exact le_trans (ih (processMsg now hc st m))
      (processMsg_potential now hc st m id hid)

lemma syncStep_potential (k : String) (c : Bool) (now : Int) (hc : Bool)
    (resp : SyncResp) (st : DrainState) (id : String) (hid : id ≠ "") :
    dispatchPotential (syncStep k c now hc resp st).1 id ≤
      dispatchPotential st id := by
  unfold syncStep
  by_cases he : resp.errcode ≠ 0
  · rw [if_pos he]
  · rw [if_neg he]
    by_cases hl : resp.msg_list.isEmpty
    · rw [if_pos hl]
      split <;> exact le_refl _
    · rw [if_neg hl]
      cases c with
      | true =>
        rw [if_pos rfl]
        split <;> exact le_refl _
      | false =>
        rw [if_neg (by simp)]
        refine le_trans (processMsgs_potential now hc resp.msg_list _ id hid) ?_
        split <;> exact le_refl _

lemma drainLoop_potential (k : String) (c : Bool) (now : Int) (hc : Bool)
    (pages : List (Option SyncResp)) (st : DrainState) (id : String)
    (hid : id ≠ "") :
    dispatchPotential (drainLoop k c now hc pages st) id ≤
      dispatchPotential st id := by
  induction pages generalizing st with
  | nil => exact le_refl _
  | cons p rest ih =>
    cases p with
    | none =>
      rw [drainLoop_cons_none]
      exact le_refl _
    | some resp =>
      rw [drainLoop_cons_some]
      split
      · exact le_trans (ih _)
          (syncStep_potential k c now hc resp
            { st with consumed := st.consumed + 1 } id hid)
      · exact syncStep_potential k c now hc resp
          { st with consumed := st.consumed + 1 } id hid

/-- C3: (1) the first `isDuplicate` call for an id records it and returns
`false`, and a later call within the TTL window — even after the lazy
prune at that later time — returns `true`; (2) in a warm-start drain
(stored cursor present) whose pages contain several items sharing a
non-empty message id, at most one dispatch occurs for that id. -/
theorem C3_dedup_at_most_one_dispatch :
    (∀ (proc : List (String × Int)) (id : String) (now nowLater : Int),
        (isDuplicate proc id now).1 = false →
        nowLater - now < DEDUP_TTL_MS →
        (isDuplicate (pruneProcessedMsgIds (isDuplicate proc id now).2
          nowLater) id nowLater).1 = true) ∧
    (∀ (acct : Account) (cbKf : Option String) (hasCore : Bool) (now : Int)
        (pages : List (Option SyncResp)) (store0 : List (String × String))
        (processed0 : List (String × Int)) (id : String),
        id ≠ "" →
        (store0.lookup (effectiveCursorKey acct cbKf)).getD "" ≠ "" →
        dispatchCount (pullAndDispatchMessages acct cbKf hasCore now pages
          store0 processed0) id ≤ 1) := by
  constructor
  · intro proc id now nowLater hfst httl
    have h := isDuplicate_false_lookup proc id now (by simp [hfst])
    rw [h.2]
    have hkeep : decide (nowLater - DEDUP_TTL_MS ≤ now) = true := by
      simp only [decide_eq_true_eq]
      omega
    unfold pruneProcessedMsgIds
    rw [List.filter_cons_of_pos (by simpa using hkeep)]
    unfold isDuplicate
    rw [if_pos (by simp [List.lookup])]
  · intro acct cbKf hasCore now pages store0 processed0 id hid _hwarm
    unfold pullAndDispatchMessages
    split_ifs
    · simp [dispatchCount, initDrainState]
    · have h1 : dispatchCount (drainLoop (effectiveCursorKey acct cbKf)
          (decide ((store0.lookup (effectiveCursorKey acct cbKf)).getD "" = ""))
          now hasCore pages
          (initDrainState store0 (pruneProcessedMsgIds processed0 now))) id ≤
          dispatchPotential (drainLoop (effectiveCursorKey acct cbKf)
            (decide ((store0.lookup (effectiveCursorKey acct cbKf)).getD "" = ""))
            now hasCore pages
            (initDrainState store0 (pruneProcessedMsgIds processed0 now))) id :=
        Nat.le_add_right _ _
      refine le_trans h1 (le_trans (drainLoop_potential _ _ now hasCore pages _
        id hid) ?_)
      unfold dispatchPotential dispatchCount initDrainState
      simp only [List.countP_nil, Nat.zero_add]
      split <;> omega
    · simp [dispatchCount, initDrainState]

/-- Witness for C3: both parts applied at concrete inputs (a fresh dedup
map, then the concrete warm drain that redelivers `m1` on page 2). -/
theorem C3_dedup_at_most_one_dispatch_witness :
    (isDuplicate (pruneProcessedMsgIds (isDuplicate [] "m1" 0).2 5) "m1" 5).1
      = true ∧
    dispatchCount (pullAndDispatchMessages exAcct none true 0
      [some exPage1, some exPage2] exStoreWarm []) "m1" ≤ 1 :=
  ⟨C3_dedup_at_most_one_dispatch.1 [] "m1" 0 5 (by decide) (by decide),
   C3_dedup_at_most_one_dispatch.2 exAcct none true 0
     [some exPage1, some exPage2] exStoreWarm [] "m1" (by decide) (by decide)⟩

/-! ### Cursor persistence and loop continuation (C5) -/

lemma syncStep_saves (k : String) (c : Bool) (now : Int) (hc : Bool)
    (resp : SyncResp) (st : DrainState) (h0 : resp.errcode = 0) :
    (syncStep k c now hc resp st).1.saves =
      if resp.next_cursor ≠ "" then st.saves + 1 else st.saves := by
  unfold syncStep
  rw [if_neg (by simp [h0])]
  by_cases hn : resp.next_cursor ≠ "" <;>
    by_cases hl : resp.msg_list.isEmpty <;>
      cases c <;>
        simp [hn, hl, (processMsgs_frame now hc resp.msg_list _).2.2]

/-- C5 counterexample to the claim as stated: the first response has the
more-pages flag set (`has_more = 1`) and a further page is available, yet
the loop issues no second fetch, because the page's item list is empty. -/
theorem C5_counterexample_empty_page_stops :
    exPageEmptyMore.has_more = 1 ∧
    (pullAndDispatchMessages exAcct none true 0
      [some exPageEmptyMore, some exPage2] exStoreWarm []).consumed = 1 := by
  decide

/-- C5 (amended): after each successful paged-fetch response, the returned
next-pointer is stored and a debounced save scheduled exactly when it is
non-empty; and the loop issues another fetch if and only if the response's
more-pages flag is set AND its item list is non-empty (and a further
response is available). -/
theorem C5_cursor_store_and_continuation (key : String) (cold : Bool)
    (now : Int) (hasCore : Bool) (resp : SyncResp) (st : DrainState)
    (h0 : resp.errcode = 0) :
    ((syncStep key cold now hasCore resp st).2 = true ↔
      (resp.has_more = 1 ∧ resp.msg_list ≠ [])) ∧
    ((syncStep key cold now hasCore resp st).1.store.lookup key =
      if resp.next_cursor ≠ "" then some resp.next_cursor
      else st.store.lookup key) ∧
    ((syncStep key cold now hasCore resp st).1.saves =
      if resp.next_cursor ≠ "" then st.saves + 1 else st.saves) ∧
    (∀ rest : List (Option SyncResp),
      st.consumed + 2 ≤
          (drainLoop key cold now hasCore (some resp :: rest) st).consumed ↔
        (resp.has_more = 1 ∧ resp.msg_list ≠ [] ∧ rest ≠ [])) := by
  refine ⟨?_, ?_, syncStep_saves key cold now hasCore resp st h0, ?_⟩
  · rw [syncStep_snd_iff]
    simp [h0]
  · rw [syncStep_store_lookup]
    simp [h0]
  · intro rest
    constructor
    · intro hc2
      by_cases hcont : (syncStep key cold now hasCore resp
          { st with consumed := st.consumed + 1 }).2 = true
      · have h3 := (syncStep_snd_iff _ _ _ _ _ _).mp hcont
        refine ⟨h3.2.1, h3.2.2, ?_⟩
        rintro rfl
        rw [drainLoop_cons_some, if_pos hcont, drainLoop_nil,
          syncStep_consumed] at hc2
        have h5 : st.consumed + 2 ≤ st.consumed + 1 := hc2
        omega
      · rw [drainLoop_cons_some, if_neg hcont, syncStep_consumed] at hc2
        have h5 : st.consumed + 2 ≤ st.consumed + 1 := hc2
        omega
    · rintro ⟨h1, h2, h3⟩
      have hcont : (syncStep key cold now hasCore resp
          { st with consumed := st.consumed + 1 }).2 = true :=
        (syncStep_snd_iff _ _ _ _ _ _).mpr ⟨h0, h1, h2⟩
      rw [drainLoop_cons_some, if_pos hcont]
      obtain ⟨q, rs, rfl⟩ := List.exists_cons_of_ne_nil h3
      have h4 := drainLoop_consumed_ge_one key cold now hasCore q rs
        ((syncStep key cold now hasCore resp
          { st with consumed := st.consumed + 1 }).1)
      rw [syncStep_consumed] at h4
      have h5 : st.consumed + 1 + 1 ≤
          (drainLoop key cold now hasCore (q :: rs)
            ((syncStep key cold now hasCore resp
              { st with consumed := st.consumed + 1 }).1)).consumed := h4
      omega

/-- Witness for C5 (amended) at the concrete first page. -/
theorem C5_cursor_store_and_continuation_witness :
    (syncStep "acct:kf" false 0 true exPage1 (initDrainState [] [])).2 = true ↔
      (exPage1.has_more = 1 ∧ exPage1.msg_list ≠ []) :=
  (C5_cursor_store_and_continuation "acct:kf" false 0 true exPage1
    (initDrainState [] []) (by decide)).1

/-! ### Upstream failure aborts the drain (C6) -/

lemma drainLoop_error_run (k : String) (cold : Bool) (now : Int) (hc : Bool)
    (goods : List SyncResp) (bad : Option SyncResp)
    (rest : List (Option SyncResp)) (st : DrainState)
    (hgood : ∀ g ∈ goods, g.errcode = 0 ∧ g.has_more = 1 ∧ g.msg_list ≠ [])
    (hbad : bad = none ∨ ∃ r, bad = some r ∧ r.errcode ≠ 0) :
    (drainLoop k cold now hc (goods.map some ++ bad :: rest) st).store.lookup
        k = lastCursorStored (st.store.lookup k) goods ∧
    (drainLoop k cold now hc (goods.map some ++ bad :: rest) st).consumed =
      st.consumed + goods.length + 1 := by
  induction goods generalizing st with
  | nil =>
    simp only [List.map_nil, List.nil_append, lastCursorStored,
      List.foldl_nil, List.length_nil]
    rcases hbad with rfl | ⟨r, rfl, hr⟩
    · rw [drainLoop_cons_none]
      exact ⟨rfl, rfl⟩
    · have hcont : ¬ (syncStep k cold now hc r
          { st with consumed := st.consumed + 1 }).2 = true := by
        intro hX
        exact hr ((syncStep_snd_iff _ _ _ _ _ _).mp hX).1
      rw [drainLoop_cons_some, if_neg hcont]
      constructor
      · rw [syncStep_store_lookup]
        simp [hr]
      · rw [syncStep_consumed]

  | cons g goods' ih =>
    have hg := hgood g (by simp)
    have hcont : (syncStep k cold now hc g
        { st with consumed := st.consumed + 1 }).2 = true :=
      (syncStep_snd_iff _ _ _ _ _ _).mpr hg
    simp only [List.map_cons, List.cons_append]
    rw [drainLoop_cons_some, if_pos hcont]
    have ihh := ih ((syncStep k cold now hc g
        { st with consumed := st.consumed + 1 }).1)
      (fun x hx => hgood x (by simp [hx]))
    constructor
    · rw [ihh.1, syncStep_store_lookup]
      simp only [lastCursorStored, List.foldl_cons, hg.1, true_and]
    · rw [ihh.2, syncStep_consumed]
      simp only [List.length_cons]
      omega

/-- C6: when a paged-fetch call fails mid-drain (thrown error, or a
response with non-zero result code), the drain terminates at that point:
exactly the successful pages plus the failing fetch are consumed — no
retry touches the remaining available responses — and the cursor store
entry for the drain's key equals the last successfully stored next-cursor
(the pre-drain value if no page stored one). -/
theorem C6_upstream_error_aborts_drain (acct : Account)
    (cbKf : Option String) (hasCore : Bool) (now : Int)
    (goods : List SyncResp) (bad : Option SyncResp)
    (rest : List (Option SyncResp)) (store0 : List (String × String))
    (processed0 : List (String × Int))
    (hcorp : strTruthy acct.corpId = true)
    (hsec : strTruthy acct.corpSecret = true)
    (hkf : strTruthy (effectiveOpenKf acct cbKf) = true)
    (hgood : ∀ g ∈ goods, g.errcode = 0 ∧ g.has_more = 1 ∧ g.msg_list ≠ [])
    (hbad : bad = none ∨ ∃ r, bad = some r ∧ r.errcode ≠ 0) :
    (pullAndDispatchMessages acct cbKf hasCore now
        (goods.map some ++ bad :: rest) store0 processed0).store.lookup
      (effectiveCursorKey acct cbKf) =
      lastCursorStored (store0.lookup (effectiveCursorKey acct cbKf)) goods ∧
    (pullAndDispatchMessages acct cbKf hasCore now
        (goods.map some ++ bad :: rest) store0 processed0).consumed =
      goods.length + 1 := by
  have hred : pullAndDispatchMessages acct cbKf hasCore now
      (goods.map some ++ bad :: rest) store0 processed0 =
      drainLoop (effectiveCursorKey acct cbKf)
        (decide ((store0.lookup (effectiveCursorKey acct cbKf)).getD "" = ""))
        now hasCore (goods.map some ++ bad :: rest)
        (initDrainState store0 (pruneProcessedMsgIds processed0 now)) := by
    unfold pullAndDispatchMessages
    rw [if_neg (by simp [hcorp, hsec]), if_neg (by simp [hkf])]
  rw [hred]
  have h := drainLoop_error_run (effectiveCursorKey acct cbKf)
    (decide ((store0.lookup (effectiveCursorKey acct cbKf)).getD "" = ""))
    now hasCore goods bad rest
    (initDrainState store0 (pruneProcessedMsgIds processed0 now)) hgood hbad
  refine ⟨h.1, ?_⟩
  rw [h.2]
  simp [initDrainState]

/-- Witness for C6: one good page, then a non-zero result code, with a
further page available that is never fetched. -/
theorem C6_upstream_error_aborts_drain_witness :
    (pullAndDispatchMessages exAcct none true 0
        [some exPage1, some exPageErr, some exPage2] exStoreWarm
        []).store.lookup (effectiveCursorKey exAcct none) =
      lastCursorStored (exStoreWarm.lookup (effectiveCursorKey exAcct none))
        [exPage1] ∧
    (pullAndDispatchMessages exAcct none true 0
        [some exPage1, some exPageErr, some exPage2] exStoreWarm
        []).consumed = [exPage1].length + 1 :=
  C6_upstream_error_aborts_drain exAcct none true 0 [exPage1]
    (some exPageErr) [some exPage2] exStoreWarm []
    (by decide) (by decide) (by decide) (by decide)
    (Or.inr ⟨exPageErr, rfl, by decide⟩)

/-! ### Event router: enter_session welcome (C7) -/

/-- C7: for every `enter_session` event handled by the event router, if
the event carries a (truthy) welcome code and the account's configured
welcome text is non-empty after trimming, exactly one welcome-send call is
made carrying that code (and the trimmed text); if either is absent, zero
welcome-send calls are made. -/
theorem C7_enter_session_welcome (msg : SyncMsg) (acct : Account)
    (hev : (msg.event.bind (·.event_type)).getD "" = "enter_session") :
    (strTruthy (msg.event.bind (·.welcome_code)) = true →
      strTruthy (acct.welcomeText.map jsTrim) = true →
      handleKfEvent msg acct =
        [((msg.event.bind (·.welcome_code)).getD "",
          (acct.welcomeText.map jsTrim).getD "")]) ∧
    ((strTruthy (msg.event.bind (·.welcome_code)) = false ∨
      strTruthy (acct.welcomeText.map jsTrim) = false) →
      handleKfEvent msg acct = []) := by
  unfold handleKfEvent
  rw [if_pos hev]
  constructor
  · intro h1 h2
    rw [if_pos ⟨h1, h2⟩]
  · intro h
    rw [if_neg]
    rintro ⟨h1, h2⟩
    rcases h with h | h
    · rw [h1] at h
      cases h
    · rw [h2] at h
      cases h

/-- Witness for C7: the concrete `enter_session` event with a welcome code
against the account configured with welcome text `"hi"`, and the
code-less variant producing no call. -/
theorem C7_enter_session_welcome_witness :
    handleKfEvent exEnterSession exAcct =
      [((exEnterSession.event.bind (·.welcome_code)).getD "",
        (exAcct.welcomeText.map jsTrim).getD "")] ∧
    handleKfEvent exEnterSessionNoCode exAcct = [] :=
  ⟨(C7_enter_session_welcome exEnterSession exAcct (by decide)).1
      (by decide) (by decide),
   (C7_enter_session_welcome exEnterSessionNoCode exAcct (by decide)).2
      (Or.inl (by decide))⟩

/-! ### Access-token cache (C8) -/

lemma tokenCacheSet_lookup_self (cache : List (String × AccessTokenCacheEntry))
    (k : String) (v : AccessTokenCacheEntry) :
    (tokenCacheSet cache k v).lookup k = some v := by
  simp [tokenCacheSet, List.lookup]

/-- C8: the cached validity window is 115 minutes (120-minute nominal
validity minus a 5-minute margin); a call with a live cache entry
(`now < expiresAt`) returns it with no upstream call; a call with no live
entry calls upstream and stores the token with
`expiresAt = now + ACCESS_TOKEN_TTL_MS`; hence two calls within the cached
validity window return the identical token and the second makes no
upstream call. -/
theorem C8_access_token_reuse :
    ACCESS_TOKEN_TTL_MS = 115 * 60 * 1000 ∧
    (∀ (acct : Account) (cache : List (String × AccessTokenCacheEntry))
        (now : Int) (e : AccessTokenCacheEntry) (up : GettokenResp),
        strTruthy acct.corpId = true → strTruthy acct.corpSecret = true →
        cache.lookup (tokenCacheKey acct) = some e → now < e.expiresAt →
        getAccessToken acct cache now up = .ok ⟨e.token, cache, false⟩) ∧
    (∀ (acct : Account) (cache : List (String × AccessTokenCacheEntry))
        (now : Int) (up : GettokenResp) (tok : String),
        strTruthy acct.corpId = true → strTruthy acct.corpSecret = true →
        (∀ e, cache.lookup (tokenCacheKey acct) = some e →
          ¬ now < e.expiresAt) →
        up.errcode.getD 0 = 0 → up.access_token = some tok → tok ≠ "" →
        getAccessToken acct cache now up =
          .ok ⟨tok, tokenCacheSet cache (tokenCacheKey acct)
            ⟨tok, now + ACCESS_TOKEN_TTL_MS⟩, true⟩ ∧
        (tokenCacheSet cache (tokenCacheKey acct)
            ⟨tok, now + ACCESS_TOKEN_TTL_MS⟩).lookup (tokenCacheKey acct) =
          some ⟨tok, now + ACCESS_TOKEN_TTL_MS⟩) ∧
    (∀ (acct : Account) (cache : List (String × AccessTokenCacheEntry))
        (t0 t1 : Int) (up upLater : GettokenResp) (tok : String),
        strTruthy acct.corpId = true → strTruthy acct.corpSecret = true →
        cache.lookup (tokenCacheKey acct) = none →
        up.errcode.getD 0 = 0 → up.access_token = some tok → tok ≠ "" →
        t1 < t0 + ACCESS_TOKEN_TTL_MS →
        ∃ c1, getAccessToken acct cache t0 up = .ok ⟨tok, c1, true⟩ ∧
          getAccessToken acct c1 t1 upLater = .ok ⟨tok, c1, false⟩) := by
  have hfetch : ∀ (key : String)
      (cache : List (String × AccessTokenCacheEntry)) (now : Int)
      (up : GettokenResp) (tok : String),
      up.errcode.getD 0 = 0 → up.access_token = some tok → tok ≠ "" →
      fetchFreshToken key cache now up =
        .ok ⟨tok, tokenCacheSet cache key ⟨tok, now + ACCESS_TOKEN_TTL_MS⟩,
          true⟩ := by
    intro key cache now up tok he ht htne
    unfold fetchFreshToken
    rw [if_neg (by simp [he])]
    rw [if_neg (by simp [strTruthy, ht, htne])]
    simp [ht]
  refine ⟨by decide, ?_, ?_, ?_⟩
  · intro acct cache now e up hc hs hlk hlive
    unfold getAccessToken
    rw [if_neg (by simp [hc, hs]), hlk]
    simp [hlive]
  · intro acct cache now up tok hc hs hnolive he ht htne
    refine ⟨?_, tokenCacheSet_lookup_self cache (tokenCacheKey acct) _⟩
    unfold getAccessToken
    rw [if_neg (by simp [hc, hs])]
    cases hlk : cache.lookup (tokenCacheKey acct) with
    | none => exact hfetch _ cache now up tok he ht htne
    | some e =>
      dsimp only
      rw [if_neg (hnolive e hlk)]
      exact hfetch _ cache now up tok he ht htne
  · intro acct cache t0 t1 up upLater tok hc hs hnone he ht htne httl
    refine ⟨tokenCacheSet cache (tokenCacheKey acct)
      ⟨tok, t0 + ACCESS_TOKEN_TTL_MS⟩, ?_, ?_⟩
    · unfold getAccessToken
      rw [if_neg (by simp [hc, hs]), hnone]
      exact hfetch _ cache t0 up tok he ht htne
    · unfold getAccessToken
      rw [if_neg (by simp [hc, hs]), tokenCacheSet_lookup_self]
      simp [httl]

/-- Witness for C8: a miss at time 0 stores the token; a second call at
time 1000 (inside the validity window) reuses it with no upstream call. -/
theorem C8_access_token_reuse_witness :
    ∃ c1, getAccessToken exAcct [] 0 exGettokenOk = .ok ⟨"TOKEN", c1, true⟩ ∧
      getAccessToken exAcct c1 1000 exGettokenOk = .ok ⟨"TOKEN", c1, false⟩ :=
  C8_access_token_reuse.2.2.2 exAcct [] 0 1000 exGettokenOk exGettokenOk
    "TOKEN" (by decide) (by decide) (by decide) (by decide) (by decide)
    (by decide) (by decide)

/-! ### GET verification branch (C9) -/

/-- C9 counterexample to the claim as stated: a registered tenant whose
signature verifies but which has no envelope key configured yields 401,
where the claim (all params present, a tenant verifies, decryption would
succeed) predicts 200. -/
theorem C9_counterexample_matched_tenant_no_key :
    matchedTargets [exAcctNoKey] "1" "n" "echo" "sig" verifyAlways =
      [exAcctNoKey] ∧
    decryptOk (exAcctNoKey.encodingAESKey.getD "") exAcctNoKey.corpId "echo" =
      some "PLAINTEXT" ∧
    handleGetVerification [exAcctNoKey] "1" "n" "sig" "echo" verifyAlways
      decryptOk = ⟨401, "unauthorized"⟩ := by
  decide

/-- C9 (amended): GET verification returns 400 when any of timestamp,
nonce, signature, echostr is missing; 401 when no registered tenant's
signature verifies; 401 also when the first matching tenant has no
envelope key configured; 400 when decryption of the challenge fails; and
otherwise 200 with the raw decrypted plaintext as the body. -/
theorem C9_get_verification_cases (targets : List Account)
    (timestamp nonce sig echostr : String)
    (verify : String → String → String → String → String → Bool)
    (decrypt : String → Option String → String → Option String) :
    ((timestamp = "" ∨ nonce = "" ∨ sig = "" ∨ echostr = "") →
      handleGetVerification targets timestamp nonce sig echostr verify
        decrypt = ⟨400, "missing query params"⟩) ∧
    (timestamp ≠ "" → nonce ≠ "" → sig ≠ "" → echostr ≠ "" →
      (matchedTargets targets timestamp nonce echostr sig verify = [] →
        handleGetVerification targets timestamp nonce sig echostr verify
          decrypt = ⟨401, "unauthorized"⟩) ∧
      (∀ t ts,
        matchedTargets targets timestamp nonce echostr sig verify = t :: ts →
        (strTruthy t.encodingAESKey = false →
          handleGetVerification targets timestamp nonce sig echostr verify
            decrypt = ⟨401, "unauthorized"⟩) ∧
        (∀ pt, strTruthy t.encodingAESKey = true →
          decrypt (t.encodingAESKey.getD "") t.corpId echostr = some pt →
          handleGetVerification targets timestamp nonce sig echostr verify
            decrypt = ⟨200, pt⟩) ∧
        (strTruthy t.encodingAESKey = true →
          decrypt (t.encodingAESKey.getD "") t.corpId echostr = none →
          handleGetVerification targets timestamp nonce sig echostr verify
            decrypt = ⟨400, "decrypt failed"⟩))) := by
  constructor
  · intro h
    unfold handleGetVerification
    rw [if_pos h]
  · intro h1 h2 h3 h4
    have hnm : ¬ (timestamp = "" ∨ nonce = "" ∨ sig = "" ∨ echostr = "") := by
      simp [h1, h2, h3, h4]
    constructor
    · intro hm
      unfold handleGetVerification
      rw [if_neg hnm, hm]
    · intro t ts hm
      refine ⟨?_, ?_, ?_⟩
      · intro hkey
        unfold handleGetVerification
        rw [if_neg hnm, hm]
        dsimp only
        rw [if_pos (by simp [hkey])]
      · intro pt hkey hdec
        unfold handleGetVerification
        rw [if_neg hnm, hm]
        dsimp only
        rw [if_neg (by simp [hkey]), hdec]
      · intro hkey hdec
        unfold handleGetVerification
        rw [if_neg hnm, hm]
        dsimp only
        rw [if_neg (by simp [hkey]), hdec]

/-- Witness for C9 (amended): the success case at a concrete tenant,
yielding 200 with the decrypted plaintext. -/
theorem C9_get_verification_cases_witness :
    handleGetVerification [exAcct] "1" "n" "sig" "echo" verifyAlways
      decryptOk = ⟨200, "PLAINTEXT"⟩ := by
  have h := (C9_get_verification_cases [exAcct] "1" "n" "sig" "echo"
    verifyAlways decryptOk).2 (by decide) (by decide) (by decide) (by decide)
  exact (h.2 exAcct [] (by decide)).2.1 "PLAINTEXT" (by decide) (by decide)

/-! ### POST callback: decrypt failure and the drain (C1) -/

/-- C1 counterexample to the claim as stated: a POST callback whose
signature matches a registered tenant and whose envelope decryption fails
logs the failure but STILL starts the drain — `pullAndDispatchMessages` is
invoked (with no extracted token or channel-instance id). -/
theorem C1_counterexample_decrypt_failure_still_drains :
    (handlePostCallback [exAcct] "1" "n" "sig" "ENC" "1" "n" "sig"
      verifyAlways decryptFail extractNone).drainStarted = true ∧
    (handlePostCallback [exAcct] "1" "n" "sig" "ENC" "1" "n" "sig"
      verifyAlways decryptFail extractNone).loggedDecryptError = true := by
  decide

/-- C1 (amended): for every POST callback whose signature matches a
registered tenant but whose envelope decryption fails, the handler logs
the failure and still starts the drain, passing no callback token and no
callback channel-instance id (the response is the 200 "success" ack). -/
theorem C1_post_decrypt_failure_drain_still_starts (targets : List Account)
    (timestamp nonce sig encrypt msgTimestamp msgNonce msgSig : String)
    (verify : String → String → String → String → String → Bool)
    (decrypt : String → Option String → String → Option String)
    (extract : String → Option String × Option String)
    (t : Account) (ts : List Account)
    (h1 : timestamp ≠ "") (h2 : nonce ≠ "") (h3 : sig ≠ "")
    (henc : encrypt ≠ "")
    (hm : matchedTargets targets msgTimestamp msgNonce encrypt msgSig verify
      = t :: ts)
    (hkey : strTruthy t.encodingAESKey = true)
    (hdec : decrypt (t.encodingAESKey.getD "") t.corpId encrypt = none) :
    handlePostCallback targets timestamp nonce sig encrypt msgTimestamp
      msgNonce msgSig verify decrypt extract =
      ⟨200, "success", true, none, none, true⟩ := by
  unfold handlePostCallback
  rw [if_neg (by simp [h1, h2, h3]), if_neg henc, hm]
  dsimp only
  unfold postAckDecrypt
  rw [if_pos hkey, hdec]

/-- Witness for C1 (amended) at a concrete tenant and failing
decryption. -/
theorem C1_post_decrypt_failure_drain_still_starts_witness :
    handlePostCallback [exAcct] "1" "n" "sig" "ENC" "2" "n2" "sig2"
      verifyAlways decryptFail extractNone =
      ⟨200, "success", true, none, none, true⟩ :=
  C1_post_decrypt_failure_drain_still_starts [exAcct] "1" "n" "sig" "ENC"
    "2" "n2" "sig2" verifyAlways decryptFail extractNone exAcct []
    (by decide) (by decide) (by decide) (by decide) (by decide) (by decide)
    (by decide)

end WecomKf
